import Mathlib

/-!
# Verification of the chat-bot app data layer

A shallow embedding of the repository's data-management core:

* the typed data model (`src/types/index.ts`),
* the dynamic JSON-value layer used at the storage boundary
  (`JValue`, validators and `sanitizeStorageData` from
  `src/utils/dataValidation.ts`, JSON serialization from
  `src/utils/StorageManager.ts`),
* the three record services (`src/services/ChatService.ts`,
  `src/services/TaskService.ts`, `src/services/ProfileService.ts`).

Conventions of the embedding:

* `Date` values are modelled by their millisecond count (a `Nat`); the
  ISO serialization of a date produced by `JSON.stringify` is modelled by
  a non-empty decimal string of that count, and `new Date(string)` by
  decimal parsing (defaulting to `0` for unparseable strings, which
  stands in for JavaScript's `Invalid Date` — still a `Date` object,
  which is all the validators inspect; no property proved here depends
  on the numeric value of a parsed date).
* Asynchronous methods are modelled as pure state-passing functions;
  a method that can `throw` returns `Except String _` (or `Option`),
  the error value standing for the thrown exception.
* The mutually recursive `getProfile`/`updateProfile` pair is modelled
  with explicit fuel; exhausting every fuel bound models divergence.
-/

deriving instance DecidableEq for Except

namespace ChatBot

/-- Typed `Message` record, from `src/types/index.ts`.  The `timestamp`
is a date, modelled as its millisecond count. -/
structure Message where
  id : String
  text : String
  isUser : Bool
  timestamp : Nat
  chatId : String

deriving Repr, DecidableEq

/-- Typed `Chat` record, from `src/types/index.ts`. -/
structure Chat where
  id : String
  title : String
  lastMessage : String
  lastMessageTime : Nat
  messages : List Message

deriving Repr, DecidableEq

/-- Typed `Task` record, from `src/types/index.ts`; `description` and
`fromChatId` are optional fields. -/
structure Task where
  id : String
  title : String
  description : Option String
  completed : Bool
  createdAt : Nat
  fromChatId : Option String

deriving Repr, DecidableEq

/-- The `theme` enumeration of `UserProfile.preferences`. -/
inductive Theme where
  | light
  | dark
  | auto

deriving Repr, DecidableEq

/-- The string carried by a `Theme` value in the TypeScript union type. -/
def Theme.toStr : Theme → String
  | .light => "light"
  | .dark => "dark"
  | .auto => "auto"

/-- The `preferences` sub-object of `UserProfile`. -/
structure Preferences where
  theme : Theme
  notifications : Bool
  aiModel : String

deriving Repr, DecidableEq

/-- Typed `UserProfile` record, from `src/types/index.ts`. -/
structure UserProfile where
  name : Option String
  avatar : Option String
  preferences : Preferences

deriving Repr, DecidableEq

/-! ## The dynamic (JSON) value layer

`JValue` models a JavaScript runtime value as it appears at the storage
boundary: the JSON primitives, arrays and objects, plus `undefined` and
`Date` objects (dates as millisecond counts). -/

/-- A JavaScript value at the storage boundary. -/
inductive JValue where
  | null
  | undef
  | bool (b : Bool)
  | num (n : Int)
  | str (s : String)
  | date (ms : Nat)
  | arr (elems : List JValue)
  | obj (fields : List (String × JValue))

deriving Repr

mutual

/-- Structural decidable equality for `JValue`. -/
def JValue.beq : JValue → JValue → Bool
  | .null, .null => true
  | .undef, .undef => true
  | .bool a, .bool b => a == b
  | .num a, .num b => a == b
  | .str a, .str b => a == b
  | .date a, .date b => a == b
  | .arr a, .arr b => JValue.beqList a b
  | .obj a, .obj b => JValue.beqFields a b
  | _, _ => false

/-- Elementwise equality of `JValue` lists. -/
def JValue.beqList : List JValue → List JValue → Bool
  | [], [] => true
  | a :: as_, b :: bs => JValue.beq a b && JValue.beqList as_ bs
  | _, _ => false

/-- Elementwise equality of object field lists. -/
def JValue.beqFields : List (String × JValue) → List (String × JValue) → Bool
  | [], [] => true
  | (ka, va) :: as_, (kb, vb) :: bs =>
      ka == kb && JValue.beq va vb && JValue.beqFields as_ bs
  | _, _ => false

end

mutual

def JValue.beq_refl : ∀ v : JValue, JValue.beq v v = true
  | .null => rfl
  | .undef => rfl
  | .bool b => by simp [JValue.beq]
  | .num n => by simp [JValue.beq]
  | .str s => by simp [JValue.beq]
  | .date m => by simp [JValue.beq]
  | .arr xs => by simp [JValue.beq, JValue.beqList_refl xs]
  | .obj fs => by simp [JValue.beq, JValue.beqFields_refl fs]

def JValue.beqList_refl : ∀ xs : List JValue, JValue.beqList xs xs = true
  | [] => rfl
  | x :: xs => by simp [JValue.beqList, JValue.beq_refl x, JValue.beqList_refl xs]

def JValue.beqFields_refl :
    ∀ fs : List (String × JValue), JValue.beqFields fs fs = true
  | [] => rfl
  | (k, v) :: fs => by
      simp [JValue.beqFields, JValue.beq_refl v, JValue.beqFields_refl fs]

end

mutual

def JValue.eq_of_beq : ∀ {a b : JValue}, JValue.beq a b = true → a = b
  | .null, .null, _ => rfl
  | .undef, .undef, _ => rfl
  | .bool _, .bool _, h => by simpa [JValue.beq] using h
  | .num _, .num _, h => by simpa [JValue.beq] using h
  | .str _, .str _, h => by simpa [JValue.beq] using h
  | .date _, .date _, h => by simpa [JValue.beq] using h
  | .arr xs, .arr ys, h => by
      simp only [JValue.beq] at h
      exact congrArg JValue.arr (JValue.eqList_of_beq h)
  | .obj fs, .obj gs, h => by
      simp only [JValue.beq] at h
      exact congrArg JValue.obj (JValue.eqFields_of_beq h)

def JValue.eqList_of_beq :
    ∀ {xs ys : List JValue}, JValue.beqList xs ys = true → xs = ys
  | [], [], _ => rfl
  | x :: xs, y :: ys, h => by
      simp only [JValue.beqList, Bool.and_eq_true] at h
      rw [JValue.eq_of_beq h.1, JValue.eqList_of_beq h.2]

def JValue.eqFields_of_beq :
    ∀ {fs gs : List (String × JValue)}, JValue.beqFields fs gs = true → fs = gs
  | [], [], _ => rfl
  | (k, v) :: fs, (k2, v2) :: gs, h => by
      simp only [JValue.beqFields, Bool.and_eq_true] at h
      obtain ⟨⟨hk, hv⟩, hfs⟩ := h
      have hk2 : k = k2 := by simpa using hk
      rw [hk2, JValue.eq_of_beq hv, JValue.eqFields_of_beq hfs]

end

instance : DecidableEq JValue := fun a b =>
  if h : JValue.beq a b = true then
    .isTrue (JValue.eq_of_beq h)
  else
    .isFalse (fun he => h (he ▸ JValue.beq_refl a))

/-- JavaScript truthiness of a `JValue` (`false`, `0`, `""`, `null` and
`undefined` are falsy; objects, arrays and `Date` objects are truthy). -/
def JValue.truthy : JValue → Bool
  | .null => false
  | .undef => false
  | .bool b => b
  | .num n => n != 0
  | .str s => s ≠ ""
  | .date _ => true
  | .arr _ => true
  | .obj _ => true

/-- Field lookup in an object field list: the value of the first binding
of the key, or `undefined` when the key is absent (JavaScript property
access on a plain object). -/
def jsLookup (key : String) : List (String × JValue) → JValue
  | [] => .undef
  | (k, v) :: fs => if k = key then v else jsLookup key fs

/-- Property access `v[key]` on an arbitrary value: throws a `TypeError`
on `null`/`undefined`, looks the field up on an object, and yields
`undefined` on every other value (primitives and arrays carry none of
the properties this code reads). -/
def jsGet (v : JValue) (key : String) : Except String JValue :=
  match v with
  | .null => .error "TypeError: cannot read properties of null"
  | .undef => .error "TypeError: cannot read properties of undefined"
  | .obj fields => .ok (jsLookup key fields)
  | _ => .ok (.undef)

/-- Property assignment on an object field list: overwrite the first
binding of the key, or append a new binding when the key is absent. -/
def jsSet (key : String) (val : JValue) : List (String × JValue) → List (String × JValue)
  | [] => [(key, val)]
  | (k, v) :: fs => if k = key then (k, val) :: fs else (k, v) :: jsSet key val fs

/-- Is this value a string? (`typeof v === 'string'`) -/
def JValue.isStr : JValue → Bool
  | .str _ => true
  | _ => false

/-- Is this value a boolean? (`typeof v === 'boolean'`) -/
def JValue.isBool : JValue → Bool
  | .bool _ => true
  | _ => false

/-- Is this value a `Date` object? (`v instanceof Date`) -/
def JValue.isDate : JValue → Bool
  | .date _ => true
  | _ => false

/-- Is this value `undefined`? (`v === undefined`) -/
def JValue.isUndef : JValue → Bool
  | .undef => true
  | _ => false

/-- Is this value an array? (`Array.isArray(v)`) -/
def JValue.isArr : JValue → Bool
  | .arr _ => true
  | _ => false

/-- Total property access for a base value that is statically known not
to be `null`/`undefined`: field lookup on an object, `undefined`
otherwise. -/
def jsGetD (v : JValue) (key : String) : JValue :=
  match v with
  | .obj fields => jsLookup key fields
  | _ => (.undef)

/-! ## Validators, from `src/utils/dataValidation.ts`

Each validator begins with `typeof x === 'object' && x !== null`.  Arrays
also satisfy that test, but every named property the validators then read
is `undefined` on an array, so the subsequent type checks fail; hence
matching on plain objects only is exact. -/

/-- `validateMessage` from `src/utils/dataValidation.ts`. -/
def validateMessage : JValue → Bool
  | .obj f =>
      (jsLookup "id" f).isStr && (jsLookup "text" f).isStr &&
      (jsLookup "isUser" f).isBool && (jsLookup "timestamp" f).isDate &&
      (jsLookup "chatId" f).isStr
  | _ => false

/-- `validateChat` from `src/utils/dataValidation.ts`. -/
def validateChat : JValue → Bool
  | .obj f =>
      (jsLookup "id" f).isStr && (jsLookup "title" f).isStr &&
      (jsLookup "lastMessage" f).isStr && (jsLookup "lastMessageTime" f).isDate &&
      (match jsLookup "messages" f with
       | .arr ms => ms.all validateMessage
       | _ => false)
  | _ => false

/-- `validateTask` from `src/utils/dataValidation.ts`. -/
def validateTask : JValue → Bool
  | .obj f =>
      (jsLookup "id" f).isStr && (jsLookup "title" f).isStr &&
      ((jsLookup "description" f).isUndef || (jsLookup "description" f).isStr) &&
      (jsLookup "completed" f).isBool && (jsLookup "createdAt" f).isDate &&
      ((jsLookup "fromChatId" f).isUndef || (jsLookup "fromChatId" f).isStr)
  | _ => false

/-- `validateUserProfile` from `src/utils/dataValidation.ts`.  The
`preferences` sub-object must itself be a plain object whose `theme` is
one of the three enumeration strings (an array `preferences` passes the
`typeof` test but fails the `theme` membership check). -/
def validateUserProfile : JValue → Bool
  | .obj f =>
      ((jsLookup "name" f).isUndef || (jsLookup "name" f).isStr) &&
      ((jsLookup "avatar" f).isUndef || (jsLookup "avatar" f).isStr) &&
      (match jsLookup "preferences" f with
       | .obj p =>
           (match jsLookup "theme" p with
            | .str s => s = "light" || s = "dark" || s = "auto"
            | _ => false) &&
           (jsLookup "notifications" p).isBool &&
           (jsLookup "aiModel" p).isStr
       | _ => false)
  | _ => false

/-! ## Dates and the sanitizer -/

/-- `new Date(s)` applied to a persisted date string.  Date strings are
modelled as the decimal representation of the millisecond count;
unparseable strings yield `0`, standing in for `Invalid Date` (which is
still a `Date` object — the only property the validators inspect). -/
def jsParseDate (s : String) : Nat := (s.toNat?).getD 0

/-- Serialization of a `Date` by `JSON.stringify` (`Date.prototype.toJSON`),
modelled as the decimal string of the millisecond count followed by the
ISO `Z` suffix.  What matters to every property proved here is only that
the serialization of a date is a non-empty string (so that the sanitizer
rehydrates it); the numeric value recovered by `jsParseDate` is never
inspected. -/
def jsDateToString (ms : Nat) : String := toString ms ++ "Z"

/-- One date-field rehydration step of `sanitizeStorageData`:
`if (item.f && typeof item.f === 'string') item.f = new Date(item.f)`.
The truthiness conjunct means only non-empty strings are converted. -/
def convertDateField (name : String) (f : List (String × JValue)) :
    List (String × JValue) :=
  match jsLookup name f with
  | .str s => if s = "" then f else jsSet name (.date (jsParseDate s)) f
  | _ => f

/-- Elementwise effectful map: applies `f` left to right and aborts at
the first thrown error (the behavior of a `.map` callback that throws). -/
def mapExcept (f : α → Except ε β) : List α → Except ε (List β)
  | [] => .ok []
  | x :: xs => do
      let y ← f x
      let ys ← mapExcept f xs
      return y :: ys

/-- The per-message body of the nested `item.messages.map(...)` inside
`sanitizeStorageData`: reading `msg.timestamp` throws a `TypeError` when
`msg` is `null`/`undefined`; other non-objects are returned unchanged. -/
def convertMessageDates : JValue → Except String JValue
  | .null => .error "TypeError: cannot read properties of null"
  | .undef => .error "TypeError: cannot read properties of undefined"
  | .obj f => .ok (.obj (convertDateField "timestamp" f))
  | v => .ok v

/-- The per-item body of the `.map` inside `sanitizeStorageData`:
rehydrates `timestamp`, `lastMessageTime`, `createdAt` and the
timestamps of a nested `messages` array.  Reading `item.timestamp`
throws a `TypeError` when `item` is `null`/`undefined`. -/
def convertItemDates : JValue → Except String JValue
  | .null => .error "TypeError: cannot read properties of null"
  | .undef => .error "TypeError: cannot read properties of undefined"
  | .obj f =>
      let f3 := convertDateField "createdAt"
        (convertDateField "lastMessageTime" (convertDateField "timestamp" f))
      (match jsLookup "messages" f3 with
       | .arr ms => do
           let ms2 ← mapExcept convertMessageDates ms
           return .obj (jsSet "messages" (.arr ms2) f3)
       | _ => .ok (.obj f3))
  | v => .ok v

/-- `sanitizeStorageData` from `src/utils/dataValidation.ts`: on a
non-array it returns `[]`; on an array it maps the date rehydration over
every element (aborting with the thrown `TypeError` if an element is
`null`/`undefined`) and then filters with the validator. -/
def sanitizeStorageData (data : JValue) (validator : JValue → Bool) :
    Except String (List JValue) :=
  match data with
  | .arr items => do
      let converted ← mapExcept convertItemDates items
      return converted.filter validator
  | _ => .ok []

/-- `createDefaultUserProfile` from `src/utils/dataValidation.ts`. -/
def createDefaultUserProfile : UserProfile :=
  { name := none
    avatar := none
    preferences :=
      { theme := .auto
        notifications := true
        aiModel := "gpt-3.5-turbo" } }

/-! ## JSON serialization at the storage boundary

`storageManager.setItem` stores `JSON.stringify(value)` and `getItem`
returns `JSON.parse` of the stored text.  We model the composite
parse-of-stringify as a `JValue → JValue` map: `Date` objects become
their string serialization, object fields holding `undefined` are
dropped, and `undefined` array elements become `null`. -/

mutual

/-- `JSON.parse ∘ JSON.stringify`, as a map on runtime values. -/
def jsonSerialize : JValue → JValue
  | .null => .null
  | .undef => .undef
  | .bool b => .bool b
  | .num n => .num n
  | .str s => .str s
  | .date ms => .str (jsDateToString ms)
  | .arr xs => .arr (jsonSerializeList xs)
  | .obj fs => .obj (jsonSerializeFields fs)

/-- Serialization of array elements (`undefined` becomes `null`). -/
def jsonSerializeList : List JValue → List JValue
  | [] => []
  | x :: xs =>
      (match jsonSerialize x with
       | .undef => .null
       | y => y) :: jsonSerializeList xs

/-- Serialization of object fields (`undefined`-valued fields dropped). -/
def jsonSerializeFields : List (String × JValue) → List (String × JValue)
  | [] => []
  | (k, v) :: fs =>
      match jsonSerialize v with
      | .undef => jsonSerializeFields fs
      | y => (k, y) :: jsonSerializeFields fs

end

/-! ## Encoders: typed records as runtime values

The in-memory `JValue` form of each typed record, with the field order
used at the construction sites in the services.  Optional fields are
present with value `undefined`, which is indistinguishable from absence
to property access and is dropped by serialization. -/

/-- An optional string field (`undefined` when absent). -/
def optStr : Option String → JValue
  | none => .undef
  | some s => .str s

/-- The runtime object of a typed `Message` (construction site:
`addMessage` in `src/services/ChatService.ts`). -/
def encodeMessage (m : Message) : JValue :=
  .obj [("id", .str m.id), ("chatId", .str m.chatId), ("text", .str m.text),
        ("isUser", .bool m.isUser), ("timestamp", .date m.timestamp)]

/-- The runtime object of a typed `Chat` (construction site:
`createChat` in `src/services/ChatService.ts`). -/
def encodeChat (c : Chat) : JValue :=
  .obj [("id", .str c.id), ("title", .str c.title),
        ("lastMessage", .str c.lastMessage),
        ("lastMessageTime", .date c.lastMessageTime),
        ("messages", .arr (c.messages.map encodeMessage))]

/-- The runtime object of a typed `Task` (construction site:
`createTask` in `src/services/TaskService.ts`). -/
def encodeTask (t : Task) : JValue :=
  .obj [("id", .str t.id), ("createdAt", .date t.createdAt),
        ("title", .str t.title), ("description", optStr t.description),
        ("completed", .bool t.completed),
        ("fromChatId", optStr t.fromChatId)]

/-- The runtime object of a `UserProfile.preferences` value. -/
def encodePreferences (p : Preferences) : JValue :=
  .obj [("theme", .str p.theme.toStr),
        ("notifications", .bool p.notifications),
        ("aiModel", .str p.aiModel)]

/-- The runtime object of a typed `UserProfile`. -/
def encodeProfile (p : UserProfile) : JValue :=
  .obj [("name", optStr p.name), ("avatar", optStr p.avatar),
        ("preferences", encodePreferences p.preferences)]

/-! ## The persistent store

One field per storage key of `STORAGE_KEYS` (`@chats`, `@tasks`,
`@userProfile`, `@appSettings`); each holds the parsed form of the
persisted JSON text, or `none` when the key is absent. -/

/-- The AsyncStorage state restricted to the four keys the app uses. -/
structure Store where
  chats : Option JValue
  tasks : Option JValue
  profile : Option JValue
  settings : Option JValue

deriving Repr, DecidableEq

/-- The empty store (first launch, or after `clearData`). -/
def Store.empty : Store := ⟨none, none, none, none⟩

/-- `ChatService.getChats` at the storage level: absent key degrades to
`[]`; otherwise the persisted value is sanitized against `validateChat`;
a thrown error is caught and degrades to `[]`. -/
def rawGetChats (s : Store) : List JValue :=
  match s.chats with
  | none => []
  | some v =>
      match sanitizeStorageData v validateChat with
      | .ok l => l
      | .error _ => []

/-- `TaskService.getTasks` at the storage level (same shape as
`rawGetChats`, against `validateTask`). -/
def rawGetTasks (s : Store) : List JValue :=
  match s.tasks with
  | none => []
  | some v =>
      match sanitizeStorageData v validateTask with
      | .ok l => l
      | .error _ => []

/-- The runtime object of the default profile, as built by
`createDefaultUserProfile` in `ProfileService.getProfile`. -/
def defaultProfileJ : JValue := encodeProfile createDefaultUserProfile

/-- Object spread `{ ...a, ...b }` on field lists: fields of `b` are
assigned over the fields of `a` in order (an existing key keeps its
position; a new key is appended). -/
def spreadFields (a b : List (String × JValue)) : List (String × JValue) :=
  b.foldl (fun acc kv => jsSet kv.1 kv.2 acc) a

/-- The fields contributed by spreading a value into an object literal
(`null`/`undefined`/primitives contribute none at the uses in
`updateProfile`, whose operands are objects or `undefined`). -/
def objFieldsOf : JValue → List (String × JValue)
  | .obj f => f
  | _ => []

/-- The merge performed by `ProfileService.updateProfile`:
`{ ...currentProfile, ...profileUpdates, preferences:
{ ...currentProfile.preferences, ...(profileUpdates.preferences || {}) } }`. -/
def mergeProfiles (cur upd : JValue) : JValue :=
  let updPrefs := jsGetD upd "preferences"
  let updPrefs2 := if updPrefs.truthy then updPrefs else .obj []
  let prefs :=
    JValue.obj (spreadFields (objFieldsOf (jsGetD cur "preferences"))
      (objFieldsOf updPrefs2))
  JValue.obj
    (jsSet "preferences" prefs (spreadFields (objFieldsOf cur) (objFieldsOf upd)))

mutual

/-- `ProfileService.getProfile`, with explicit fuel for the mutual
recursion with `updateProfile`; `none` is fuel exhaustion (at every
fuel bound it models divergence).  When the persisted profile is absent
or fails validation, the code builds the default profile and calls
`updateProfile` with it; a throw from `updateProfile` is caught and the
default is returned without being persisted. -/
def getProfileF : Nat → Store → Option (JValue × Store)
  | 0, _ => none
  | fuel + 1, s =>
      match s.profile with
      | some v =>
          if validateUserProfile v then some (v, s)
          else
            match updateProfileF fuel defaultProfileJ s with
            | none => none
            | some (.ok s2) => some (defaultProfileJ, s2)
            | some (.error _) => some (defaultProfileJ, s)
      | none =>
          match updateProfileF fuel defaultProfileJ s with
          | none => none
          | some (.ok s2) => some (defaultProfileJ, s2)
          | some (.error _) => some (defaultProfileJ, s)

/-- `ProfileService.updateProfile`: reads the current profile via
`getProfile`, merges, validates (throwing `Invalid profile data` on
failure — the `.error` case) and persists the merged profile. -/
def updateProfileF : Nat → JValue → Store → Option (Except String Store)
  | 0, _, _ => none
  | fuel + 1, upd, s =>
      match getProfileF fuel s with
      | none => none
      | some (cur, s1) =>
          let merged := mergeProfiles cur upd
          if validateUserProfile merged then
            some (.ok { s1 with profile := some (jsonSerialize merged) })
          else
            some (.error "Invalid profile data")

end

/-- `ProfileService.clearData`: removes the chats, tasks, profile and
settings keys. -/
def clearDataF (_s : Store) : Store := ⟨none, none, none, none⟩

/-- `ProfileService.exportData`: snapshots chats, tasks and profile into
the export document and returns its JSON text, modelled as the parsed
form of that text (`jsonSerialize` of the document).  `now` is the
clock reading for `exportDate`. -/
def exportDataF (fuel : Nat) (now : Nat) (s : Store) :
    Option (JValue × Store) :=
  let chats := rawGetChats s
  let tasks := rawGetTasks s
  match getProfileF fuel s with
  | none => none
  | some (profile, s1) =>
      let doc := JValue.obj
        [("exportDate", .str (jsDateToString now)),
         ("version", .str "1.0.0"),
         ("data", .obj [("chats", .arr chats), ("tasks", .arr tasks),
                        ("profile", profile)])]
      some (jsonSerialize doc, s1)

/-- `ProfileService.importData`, applied to the already-parsed document
(the service first runs `JSON.parse` on its text argument): throws
`Invalid import data format` when the `data` field is falsy; stores the
`chats`/`tasks` arrays wholesale when present (re-serialized by
`setItem`), and the profile only when it passes `validateUserProfile`. -/
def importDataF (doc : JValue) (s : Store) : Except String Store := do
  let dataField ← jsGet doc "data"
  if ¬ dataField.truthy then
    throw "Invalid import data format"
  else do
    let chats ← jsGet dataField "chats"
    let tasks ← jsGet dataField "tasks"
    let profile ← jsGet dataField "profile"
    let s1 := if chats.truthy && chats.isArr then
        { s with chats := some (jsonSerialize chats) } else s
    let s2 := if tasks.truthy && tasks.isArr then
        { s1 with tasks := some (jsonSerialize tasks) } else s1
    let s3 := if profile.truthy && validateUserProfile profile then
        { s2 with profile := some (jsonSerialize profile) } else s2
    return s3

/-- The message count of a chat object, as a reader of the persisted
collection would observe it. -/
def jsonMsgCount (c : JValue) : Nat :=
  match jsGetD c "messages" with
  | .arr ms => ms.length
  | _ => 0

/-- The conversation count observed through `getChats`. -/
def chatCount (s : Store) : Nat := (rawGetChats s).length

/-- The task count observed through `getTasks`. -/
def taskCount (s : Store) : Nat := (rawGetTasks s).length

/-- The per-conversation message counts observed through `getChats`. -/
def messageCounts (s : Store) : List Nat := (rawGetChats s).map jsonMsgCount

/-- The composite `exportData(); clearData(); importData(exported)`
of the round-trip property, at the storage level. -/
def exportClearImportF (fuel now : Nat) (s : Store) : Option Store :=
  match exportDataF fuel now s with
  | none => none
  | some (doc, s1) =>
      match importDataF doc (clearDataF s1) with
      | .error _ => none
      | .ok s2 => some s2

/-- A store persisting the given typed collections and profile (each
key holds the serialized form of the corresponding runtime value). -/
def mkStore (cs : List Chat) (ts : List Task) (p : UserProfile) : Store :=
  { chats := some (jsonSerialize (.arr (cs.map encodeChat)))
    tasks := some (jsonSerialize (.arr (ts.map encodeTask)))
    profile := some (jsonSerialize (encodeProfile p))
    settings := none }

/-! ## Typed service layer

The service methods of `ChatService.ts` and `TaskService.ts` are written
against the typed records; every mutating method is a read-modify-write
cycle `getX(); transform; setItem(...)` over the collection.  They are
embedded here as functions on the typed collection state (the list the
collection key holds); the bridge theorems below relate this to the raw
storage layer through serialization and `sanitizeStorageData`.
Identifier generation (`generateId`) and the clock (`new Date()`) are
impure; they enter as explicit arguments. -/

/-- `Array.prototype.find` (the services' `find(x => x.id === id) || null`). -/
def jsFind (p : α → Bool) : List α → Option α
  | [] => none
  | x :: xs => if p x then some x else jsFind p xs

/-- `Array.prototype.findIndex` (`none` models the `-1` result). -/
def jsFindIndex (p : α → Bool) : List α → Option Nat
  | [] => none
  | x :: xs =>
      if p x then some 0 else
        match jsFindIndex p xs with
        | none => none
        | some i => some (i + 1)

/-- `ChatService.getChat`: `getChats()` then find by identifier. -/
def getChatT (l : List Chat) (id : String) : Option Chat :=
  jsFind (fun c => c.id == id) l

/-- `ChatService.createChat`: build the new conversation (trimmed title,
falling back to `"New Chat"` when the trimmed title is empty, empty
message list, `lastMessageTime` = creation time) and prepend it
(`unshift`).  Returns the created chat and the persisted collection. -/
def createChatT (l : List Chat) (newId : String) (now : Nat) (title : String) :
    Chat × List Chat :=
  let newChat : Chat :=
    { id := newId
      title := if title.trim = "" then "New Chat" else title.trim
      lastMessage := ""
      lastMessageTime := now
      messages := [] }
  (newChat, newChat :: l)

/-- `ChatService.updateChat`: replace-by-identifier at the `findIndex`
position; throws when the identifier is absent. -/
def updateChatT (l : List Chat) (c : Chat) : Except String (List Chat) :=
  match jsFindIndex (fun x => x.id == c.id) l with
  | none => .error ("Chat with id " ++ c.id ++ " not found")
  | some i => .ok (l.set i c)

/-- `ChatService.deleteChat`: filter-out-by-identifier, persist. -/
def deleteChatT (l : List Chat) (id : String) : List Chat :=
  l.filter (fun c => c.id != id)

/-- The `messageData` argument of `addMessage`
(`Omit<Message, 'id' | 'chatId'>`). -/
structure MessageData where
  text : String
  isUser : Bool
  timestamp : Nat

deriving Repr, DecidableEq

/-- `ChatService.addMessage`: throws when the conversation is absent;
otherwise assigns identifier and conversation id to the message, appends
it to the conversation's messages, sets `lastMessage`/`lastMessageTime`
from the message data, and persists via `updateChat`. -/
def addMessageT (l : List Chat) (newId : String) (chatId : String)
    (md : MessageData) : Except String (Message × List Chat) :=
  match getChatT l chatId with
  | none => .error ("Chat with id " ++ chatId ++ " not found")
  | some chat =>
      let newMessage : Message :=
        { id := newId, chatId := chatId, text := md.text, isUser := md.isUser,
          timestamp := md.timestamp }
      let chat2 :=
        { chat with
            messages := chat.messages ++ [newMessage]
            lastMessage := md.text
            lastMessageTime := md.timestamp }
      match updateChatT l chat2 with
      | .error e => .error e
      | .ok l2 => .ok (newMessage, l2)

/-- A sequence of `addMessage` calls on one conversation, each with its
generated message identifier; stops at the first thrown error. -/
def addMessagesT (l : List Chat) (chatId : String) :
    List (String × MessageData) → Except String (List Chat)
  | [] => .ok l
  | (nid, md) :: rest =>
      match addMessageT l nid chatId md with
      | .error e => .error e
      | .ok (_, l2) => addMessagesT l2 chatId rest

/-- `TaskService.getTask`. -/
def getTaskT (l : List Task) (id : String) : Option Task :=
  jsFind (fun t => t.id == id) l

/-- The `taskData` argument of `createTask`
(`Omit<Task, 'id' | 'createdAt'>`). -/
structure TaskData where
  title : String
  description : Option String
  completed : Bool
  fromChatId : Option String

deriving Repr, DecidableEq

/-- `TaskService.createTask`: assigns identifier and creation timestamp
and prepends the new task (`unshift`). -/
def createTaskT (l : List Task) (newId : String) (now : Nat) (td : TaskData) :
    Task × List Task :=
  let newTask : Task :=
    { id := newId, createdAt := now, title := td.title,
      description := td.description, completed := td.completed,
      fromChatId := td.fromChatId }
  (newTask, newTask :: l)

/-- `TaskService.updateTask`: replace-by-identifier at the `findIndex`
position; throws when the identifier is absent. -/
def updateTaskT (l : List Task) (t : Task) : Except String (List Task) :=
  match jsFindIndex (fun x => x.id == t.id) l with
  | none => .error ("Task with id " ++ t.id ++ " not found")
  | some i => .ok (l.set i t)

/-- `TaskService.deleteTask`: filter-out-by-identifier, persist. -/
def deleteTaskT (l : List Task) (id : String) : List Task :=
  l.filter (fun t => t.id != id)

/-- `TaskService.toggleTaskCompletion`: throws when the task is absent;
otherwise flips `completed` and persists via `updateTask`. -/
def toggleTaskCompletionT (l : List Task) (id : String) :
    Except String (List Task) :=
  match getTaskT l id with
  | none => .error ("Task with id " ++ id ++ " not found")
  | some t => updateTaskT l { t with completed := !t.completed }

/-- The result record of `TaskService.getTaskStats`.  `completionRate`
is a rational, modelling the JavaScript number arithmetic exactly at
the magnitudes the app handles. -/
structure TaskStats where
  total : Nat
  completed : Nat
  pending : Nat
  completionRate : ℚ

deriving Repr, DecidableEq

/-- `Math.round`: nearest integer, half-way cases toward `+∞`. -/
def jsMathRound (q : ℚ) : ℤ := ⌊q + 1 / 2⌋

/-- `TaskService.getTaskStats`: total, completed, pending = total −
completed, and `Math.round(rate * 100) / 100` of the percentage (with
rate `0` when the collection is empty). -/
def getTaskStatsT (l : List Task) : TaskStats :=
  let total := l.length
  let completed := (l.filter (fun t => t.completed)).length
  let pending := total - completed
  let completionRate : ℚ :=
    if total > 0 then ((completed : ℚ) / (total : ℚ)) * 100 else 0
  { total := total, completed := completed, pending := pending,
    completionRate := (jsMathRound (completionRate * 100) : ℚ) / 100 }

/-! ## Concrete exemplar records (used by the witness theorems) -/

/-- A concrete conversation with no messages. -/
def chatA : Chat :=
  { id := "chat-1", title := "Alpha", lastMessage := "", lastMessageTime := 0,
    messages := [] }

/-- A second concrete conversation. -/
def chatB : Chat :=
  { id := "chat-2", title := "Beta", lastMessage := "", lastMessageTime := 0,
    messages := [] }

/-- A concrete pending task. -/
def taskA : Task :=
  { id := "task-1", title := "Write spec", description := some "draft",
    completed := false, createdAt := 7, fromChatId := none }

/-- A concrete completed task. -/
def taskB : Task :=
  { id := "task-2", title := "Review", description := none, completed := true,
    createdAt := 9, fromChatId := some "chat-1" }

/-- A third concrete completed task. -/
def taskC : Task :=
  { id := "task-3", title := "Ship", description := none, completed := true,
    createdAt := 11, fromChatId := none }

/-- A value on which JavaScript property access is legal (anything but
`null` and `undefined`). -/
def nonNullish : JValue → Bool
  | .null => false
  | .undef => false
  | _ => true

/-- An array element the sanitizer can process without throwing: the
element itself is not `null`/`undefined`, and neither is any element of
a nested `messages` array. -/
def elemSafe : JValue → Bool
  | .null => false
  | .undef => false
  | .obj f =>
      (match jsLookup "messages" f with
       | .arr ms => ms.all nonNullish
       | _ => true)
  | _ => true

/-- The total rehydration of one nested message, following the spec's
words (§4.2): convert a non-empty `timestamp` string into a date.  Used
to state the amended C2; on non-throwing inputs it agrees with the
embedded `convertMessageDates`. -/
def rehydrateMsg : JValue → JValue
  | .obj f => .obj (convertDateField "timestamp" f)
  | v => v

/-- The total rehydration of one record, following the spec's words
(§4.2): convert the `timestamp`, `lastMessageTime` and `createdAt`
string fields into dates, recursively inside a `messages` array.  Used
to state the amended C2. -/
def rehydrateItem : JValue → JValue
  | .obj f =>
      let f3 := convertDateField "createdAt"
        (convertDateField "lastMessageTime" (convertDateField "timestamp" f))
      (match jsLookup "messages" f3 with
       | .arr ms => .obj (jsSet "messages" (.arr (ms.map rehydrateMsg)) f3)
       | _ => .obj f3)
  | v => v

/-- A structurally valid raw task record as it comes out of JSON
deserialization (`createdAt` still a string). -/
def rawTaskGood : JValue :=
  .obj [("id", .str "task-9"), ("title", .str "Imported"),
        ("completed", .bool false), ("createdAt", .str "1000Z")]

/-- A structurally invalid raw record (numeric `id`, missing fields). -/
def rawTaskBad : JValue := .obj [("id", .num 3)]

/-! ## Wire and rehydrated record forms (support for claim C3)

The closed forms of records as they travel
through the storage boundary.  `wire…` is the serialized (JSON) form of
a record — dates as non-empty strings; `hyd…` re-times a typed record by
the parse of its date's serialization (the sanitizer rehydrates date
strings into `Date` objects whose numeric value nothing here inspects);
`memTask` is the rehydrated runtime object of a persisted task (optional
fields absent rather than `undefined`-valued, since serialization drops
them). -/

/-- A message re-timed through serialize-then-parse. -/
def hydM (m : Message) : Message :=
  { m with timestamp := jsParseDate (jsDateToString m.timestamp) }

/-- A chat re-timed through serialize-then-parse (messages pointwise). -/
def hydC (c : Chat) : Chat :=
  { c with lastMessageTime := jsParseDate (jsDateToString c.lastMessageTime)
           messages := c.messages.map hydM }

/-- A task re-timed through serialize-then-parse. -/
def hydT (t : Task) : Task :=
  { t with createdAt := jsParseDate (jsDateToString t.createdAt) }

/-- The serialized form of a message. -/
def wireMsg (m : Message) : JValue :=
  .obj [("id", .str m.id), ("chatId", .str m.chatId), ("text", .str m.text),
        ("isUser", .bool m.isUser),
        ("timestamp", .str (jsDateToString m.timestamp))]

/-- The serialized form of a chat. -/
def wireChat (c : Chat) : JValue :=
  .obj [("id", .str c.id), ("title", .str c.title),
        ("lastMessage", .str c.lastMessage),
        ("lastMessageTime", .str (jsDateToString c.lastMessageTime)),
        ("messages", .arr (c.messages.map wireMsg))]

/-- The serialized form of a task (optional fields dropped). -/
def wireTask (t : Task) : JValue :=
  .obj ([("id", .str t.id),
         ("createdAt", .str (jsDateToString t.createdAt)),
         ("title", .str t.title)]
    ++ (match t.description with
        | none => []
        | some d => [("description", .str d)])
    ++ [("completed", .bool t.completed)]
    ++ (match t.fromChatId with
        | none => []
        | some cid => [("fromChatId", .str cid)]))

/-- The rehydrated runtime object of a persisted task. -/
def memTask (t : Task) : JValue :=
  .obj ([("id", .str t.id),
         ("createdAt", .date (jsParseDate (jsDateToString t.createdAt))),
         ("title", .str t.title)]
    ++ (match t.description with
        | none => []
        | some d => [("description", .str d)])
    ++ [("completed", .bool t.completed)]
    ++ (match t.fromChatId with
        | none => []
        | some cid => [("fromChatId", .str cid)]))

/-- The export/clear/import sequence, at every fuel bound, produces no
result on this store. -/
def exportRoundTripNeverCompletes (s : Store) : Prop :=
  ∀ fuel now : Nat, exportClearImportF fuel now s = none

/-! ## Theorems -/

/-- A serialized date string is never empty (the truthiness conjunct in
the sanitizer therefore never suppresses rehydration of one). -/
theorem jsDateToString_ne_empty (ms : Nat) : jsDateToString ms ≠ "" := by
  intro h
  have h2 := congrArg String.data h
  simp [jsDateToString, String.data_append] at h2

/-! ## Supporting lemmas about `jsFind` / `jsFindIndex` -/

theorem jsFind_eq_none_iff (p : α → Bool) (l : List α) :
    jsFind p l = none ↔ ∀ x ∈ l, p x = false := by
  induction l with
  | nil => simp [jsFind]
  | cons y ys ih =>
      by_cases hp : p y
      · simp [jsFind, hp]
      · simp [jsFind, hp, ih]

theorem jsFindIndex_eq_none_iff (p : α → Bool) (l : List α) :
    jsFindIndex p l = none ↔ ∀ x ∈ l, p x = false := by
  induction l with
  | nil => simp [jsFindIndex]
  | cons y ys ih =>
      by_cases hp : p y
      · simp [jsFindIndex, hp]
      · cases hj : jsFindIndex p ys with
        | none =>
            simp [jsFindIndex, hp, hj]
            exact ih.mp hj
        | some j =>
            have hne : ¬ ∀ x ∈ ys, p x = false := fun hall => by
              rw [ih.mpr hall] at hj
              cases hj
            simp only [jsFindIndex, hp, if_false, hj]
            constructor
            · intro hc
              cases hc
            · intro hall
              exact absurd (fun x hx => hall x (List.mem_cons_of_mem y hx)) hne

theorem jsFindIndex_get (p : α → Bool) (l : List α) (i : Nat)
    (h : jsFindIndex p l = some i) :
    ∃ x, l.get? i = some x ∧ p x = true := by
  induction l generalizing i with
  | nil => simp [jsFindIndex] at h
  | cons y ys ih =>
      by_cases hp : p y
      · simp only [jsFindIndex, hp, if_true, Option.some.injEq] at h
        subst h
        exact ⟨y, rfl, hp⟩
      · cases hj : jsFindIndex p ys with
        | none => simp [jsFindIndex, hp, hj] at h
        | some j =>
            simp [jsFindIndex, hp, hj] at h
            subst h
            simpa using ih j hj

theorem jsFindIndex_set (p : α → Bool) (l : List α) (i : Nat) (a : α)
    (hi : jsFindIndex p l = some i) (ha : p a = true) :
    jsFindIndex p (l.set i a) = some i := by
  induction l generalizing i with
  | nil => simp [jsFindIndex] at hi
  | cons y ys ih =>
      by_cases hp : p y
      · simp only [jsFindIndex, hp, if_true, Option.some.injEq] at hi
        subst hi
        simp [List.set, jsFindIndex, ha]
      · cases hj : jsFindIndex p ys with
        | none => simp [jsFindIndex, hp, hj] at hi
        | some j =>
            simp [jsFindIndex, hp, hj] at hi
            subst hi
            simp [List.set, jsFindIndex, hp, ih j hj]

theorem jsFind_set (p : α → Bool) (l : List α) (i : Nat) (a : α)
    (hi : jsFindIndex p l = some i) (ha : p a = true) :
    jsFind p (l.set i a) = some a := by
  induction l generalizing i with
  | nil => simp [jsFindIndex] at hi
  | cons y ys ih =>
      by_cases hp : p y
      · simp only [jsFindIndex, hp, if_true, Option.some.injEq] at hi
        subst hi
        simp [List.set, jsFind, ha]
      · cases hj : jsFindIndex p ys with
        | none => simp [jsFindIndex, hp, hj] at hi
        | some j =>
            simp [jsFindIndex, hp, hj] at hi
            subst hi
            simp [List.set, jsFind, hp, ih j hj]

theorem jsFind_eq_some (p : α → Bool) (l : List α) (x : α)
    (h : jsFind p l = some x) :
    p x = true ∧ ∃ i, jsFindIndex p l = some i ∧ l.get? i = some x := by
  induction l with
  | nil => simp [jsFind] at h
  | cons y ys ih =>
      by_cases hp : p y
      · simp only [jsFind, hp, if_true, Option.some.injEq] at h
        subst h
        exact ⟨hp, 0, by simp [jsFindIndex, hp]⟩
      · simp only [jsFind, hp, if_false] at h
        obtain ⟨hx, i, hi, hget⟩ := ih h
        exact ⟨hx, i + 1, by simp [jsFindIndex, hp, hi], by simpa using hget⟩

/-! ## Claim theorems: conversation and task services -/

/-- C4: for every title string `t`, `createChat(t)` followed by `getChat`
on the returned identifier yields the created conversation itself: same
identifier, title `t.trim()` (or `"New Chat"` when the trimmed title is
empty) and an empty message sequence; and the new conversation is
prepended to the collection (newest-first ordering). -/
theorem createChat_then_getChat (l : List Chat) (newId : String) (now : Nat)
    (title : String) :
    getChatT (createChatT l newId now title).2 (createChatT l newId now title).1.id
        = some (createChatT l newId now title).1 ∧
    (createChatT l newId now title).1.title
        = (if title.trim = "" then "New Chat" else title.trim) ∧
    (createChatT l newId now title).1.messages = [] ∧
    (createChatT l newId now title).1.id = newId ∧
    (createChatT l newId now title).2 = (createChatT l newId now title).1 :: l := by
  refine ⟨?_, rfl, rfl, rfl, rfl⟩
  simp [createChatT, getChatT, jsFind]

/-- `updateChat` throws exactly when no element of the collection
carries the identifier of the record being written. -/
theorem updateChatT_error_iff (lc : List Chat) (c : Chat) :
    (∃ e, updateChatT lc c = .error e) ↔ ∀ x ∈ lc, x.id ≠ c.id := by
  unfold updateChatT
  cases hf : jsFindIndex (fun x => x.id == c.id) lc with
  | none =>
      rw [jsFindIndex_eq_none_iff] at hf
      exact ⟨fun _ x hx => by simpa using hf x hx, fun _ => ⟨_, rfl⟩⟩
  | some i =>
      constructor
      · rintro ⟨e, he⟩
        cases he
      · intro hall
        obtain ⟨x, hget, hx⟩ := jsFindIndex_get _ _ _ hf
        exact absurd (by simpa using hx) (hall x (List.get?_mem hget))

/-- `updateTask` throws exactly when no element of the collection
carries the identifier of the record being written. -/
theorem updateTaskT_error_iff (lt : List Task) (t : Task) :
    (∃ e, updateTaskT lt t = .error e) ↔ ∀ x ∈ lt, x.id ≠ t.id := by
  unfold updateTaskT
  cases hf : jsFindIndex (fun x => x.id == t.id) lt with
  | none =>
      rw [jsFindIndex_eq_none_iff] at hf
      exact ⟨fun _ x hx => by simpa using hf x hx, fun _ => ⟨_, rfl⟩⟩
  | some i =>
      constructor
      · rintro ⟨e, he⟩
        cases he
      · intro hall
        obtain ⟨x, hget, hx⟩ := jsFindIndex_get _ _ _ hf
        exact absurd (by simpa using hx) (hall x (List.get?_mem hget))

/-- C5: `updateChat` (and the parallel `updateTask`) fails with the
NotFound error if and only if the identifier of the given record is
absent from its collection; when the identifier is present (first
matching index `i`), the collection with position `i` replaced by the
record is what gets persisted. -/
theorem update_notFound_iff (lc : List Chat) (c : Chat) (lt : List Task) (t : Task) :
    ((∃ e, updateChatT lc c = .error e) ↔ ∀ x ∈ lc, x.id ≠ c.id) ∧
    (∀ i, jsFindIndex (fun x => x.id == c.id) lc = some i →
        updateChatT lc c = .ok (lc.set i c)) ∧
    ((∃ e, updateTaskT lt t = .error e) ↔ ∀ x ∈ lt, x.id ≠ t.id) ∧
    (∀ i, jsFindIndex (fun x => x.id == t.id) lt = some i →
        updateTaskT lt t = .ok (lt.set i t)) := by
  refine ⟨updateChatT_error_iff lc c, ?_, updateTaskT_error_iff lt t, ?_⟩
  · intro i hi
    unfold updateChatT
    rw [hi]
  · intro i hi
    unfold updateTaskT
    rw [hi]

/-- Witness for C5 at concrete inputs: updating a present chat replaces
it, and updating an absent task throws. -/
theorem update_notFound_iff_witness :
    updateChatT [chatA, chatB] { chatB with title := "Beta 2" }
        = .ok [chatA, { chatB with title := "Beta 2" }] ∧
    (∃ e, updateTaskT [taskA] taskB = .error e) := by
  constructor
  · exact (update_notFound_iff [chatA, chatB] { chatB with title := "Beta 2" }
      [taskA] taskB).2.1 1 (by decide)
  · exact (update_notFound_iff [chatA, chatB] { chatB with title := "Beta 2" }
      [taskA] taskB).2.2.1.mpr (by decide)

/-- C6: `deleteChat` / `deleteTask` are idempotent — deleting the same
identifier twice yields the same collection as deleting it once — and
deleting an identifier that is absent leaves the collection contents
unchanged (and throws no error: the embedded delete is a total
function). -/
theorem delete_idempotent_noop (lc : List Chat) (lt : List Task)
    (cid tid : String) :
    deleteChatT (deleteChatT lc cid) cid = deleteChatT lc cid ∧
    deleteTaskT (deleteTaskT lt tid) tid = deleteTaskT lt tid ∧
    ((∀ c ∈ lc, c.id ≠ cid) → deleteChatT lc cid = lc) ∧
    ((∀ t ∈ lt, t.id ≠ tid) → deleteTaskT lt tid = lt) := by
  refine ⟨?_, ?_, ?_, ?_⟩
  · simp [deleteChatT, List.filter_filter]
  · simp [deleteTaskT, List.filter_filter]
  · intro h
    apply List.filter_eq_self.mpr
    intro c hc
    simpa using h c hc
  · intro h
    apply List.filter_eq_self.mpr
    intro t ht
    simpa using h t ht

/-- Witness for C6 at concrete inputs: deleting an identifier present
once and an absent identifier. -/
theorem delete_idempotent_noop_witness :
    deleteChatT (deleteChatT [chatA, chatB] "chat-1") "chat-1"
        = deleteChatT [chatA, chatB] "chat-1" ∧
    deleteTaskT [taskA] "no-such-id" = [taskA] := by
  constructor
  · exact (delete_idempotent_noop [chatA, chatB] [taskA] "chat-1" "no-such-id").1
  · exact (delete_idempotent_noop [chatA, chatB] [taskA] "chat-1" "no-such-id").2.2.2
      (by decide)

/-- C7: `getTaskStats` returns the task count, the count of completed
tasks, `pending = total − completed`, and the completion percentage
rounded to two decimal places (`0` for the empty collection); on tasks
with completed flags `[false, true, true]` it returns
`{total := 3, completed := 2, pending := 1, completionRate := 66.67}`. -/
theorem getTaskStats_spec (l : List Task) :
    (getTaskStatsT l).total = l.length ∧
    (getTaskStatsT l).completed = l.countP (fun t => t.completed) ∧
    (getTaskStatsT l).pending = l.length - l.countP (fun t => t.completed) ∧
    (getTaskStatsT l).completionRate =
      (if l.length = 0 then 0 else
        ((⌊(l.countP (fun t => t.completed) : ℚ) / (l.length : ℚ) * 100 * 100
            + 1 / 2⌋ : ℤ) : ℚ) / 100) ∧
    getTaskStatsT [taskA, taskB, taskC] =
      { total := 3, completed := 2, pending := 1, completionRate := 66.67 } := by
  refine ⟨rfl, ?_, ?_, ?_, ?_⟩
  · simp [getTaskStatsT, List.countP_eq_length_filter]
  · simp [getTaskStatsT, List.countP_eq_length_filter]
  · by_cases h : l.length = 0
    · simp [getTaskStatsT, jsMathRound, h]
      norm_num
    · simp [getTaskStatsT, jsMathRound, h, Nat.pos_of_ne_zero h,
        List.countP_eq_length_filter]
  · have hflen : (List.filter (fun t => t.completed) [taskA, taskB, taskC]).length = 2 := by
      decide
    have hrate : jsMathRound ((((2 : ℚ) / 3) * 100) * 100) = 6667 := by
      unfold jsMathRound
      rw [show (((2 : ℚ) / 3) * 100) * 100 + 1 / 2 = 40003 / 6 by norm_num,
        Int.floor_eq_iff]
      norm_num
    simp [getTaskStatsT, hflen, hrate]
    norm_num

/-- `get?` of `set` at the written position (in-bounds). -/
theorem get?_set_self (l : List α) (i : Nat) (a : α) (h : i < l.length) :
    (l.set i a).get? i = some a := by
  induction l generalizing i with
  | nil => simp at h
  | cons y ys ih =>
      cases i with
      | zero => rfl
      | succ j => simpa using ih j (by simpa using h)

/-- `get?` of `set` away from the written position. -/
theorem get?_set_ne (l : List α) (i j : Nat) (a : α) (h : j ≠ i) :
    (l.set i a).get? j = l.get? j := by
  induction l generalizing i j with
  | nil => simp
  | cons y ys ih =>
      cases i with
      | zero =>
          cases j with
          | zero => exact absurd rfl h
          | succ j2 => simp [List.set]
      | succ i2 =>
          cases j with
          | zero => simp [List.set]
          | succ j2 => simpa [List.set] using ih i2 j2 (fun he => h (by rw [he]))

/-- C10: a successful `updateChat` / `updateTask` replaces exactly the
element at the first index whose identifier matches the incoming record
(that element indeed carried the matching identifier), leaves every
other position unchanged and preserves the collection's length — hence
the relative order of all elements. -/
theorem update_frame (lc : List Chat) (c : Chat) (lt : List Task) (t : Task)
    (i : Nat) :
    (jsFindIndex (fun x => x.id == c.id) lc = some i →
      updateChatT lc c = .ok (lc.set i c) ∧
      (lc.set i c).length = lc.length ∧
      (lc.set i c).get? i = some c ∧
      (∃ x, lc.get? i = some x ∧ x.id = c.id) ∧
      ∀ j, j ≠ i → (lc.set i c).get? j = lc.get? j) ∧
    (jsFindIndex (fun x => x.id == t.id) lt = some i →
      updateTaskT lt t = .ok (lt.set i t) ∧
      (lt.set i t).length = lt.length ∧
      (lt.set i t).get? i = some t ∧
      (∃ x, lt.get? i = some x ∧ x.id = t.id) ∧
      ∀ j, j ≠ i → (lt.set i t).get? j = lt.get? j) := by
  constructor
  · intro hi
    obtain ⟨x, hget, hx⟩ := jsFindIndex_get _ _ _ hi
    have hlt : i < lc.length := by
      by_contra hge
      rw [List.get?_eq_none.mpr (Nat.le_of_not_lt hge)] at hget
      cases hget
    exact ⟨by unfold updateChatT; rw [hi], by simp,
      get?_set_self _ _ _ hlt, ⟨x, hget, by simpa using hx⟩,
      fun j hj => get?_set_ne _ _ _ _ hj⟩
  · intro hi
    obtain ⟨x, hget, hx⟩ := jsFindIndex_get _ _ _ hi
    have hlt : i < lt.length := by
      by_contra hge
      rw [List.get?_eq_none.mpr (Nat.le_of_not_lt hge)] at hget
      cases hget
    exact ⟨by unfold updateTaskT; rw [hi], by simp,
      get?_set_self _ _ _ hlt, ⟨x, hget, by simpa using hx⟩,
      fun j hj => get?_set_ne _ _ _ _ hj⟩

/-- Witness for C10 at concrete inputs: replacing the chat at index 1
leaves index 0 untouched. -/
theorem update_frame_witness :
    updateChatT [chatA, chatB] { chatB with title := "B2" }
        = .ok [chatA, { chatB with title := "B2" }] ∧
    ([chatA, chatB].set 1 { chatB with title := "B2" }).get? 0
        = [chatA, chatB].get? 0 := by
  have h := (update_frame [chatA, chatB] { chatB with title := "B2" }
    [] taskA 1).1 (by decide)
  exact ⟨h.1, h.2.2.2.2 0 (by decide)⟩

/-- C8: two consecutive successful `toggleTaskCompletion` calls on a
present task restore the task (in particular its `completed` flag) to
its original value. -/
theorem toggle_involution (l : List Task) (id : String) (t : Task)
    (h : getTaskT l id = some t) :
    ∃ l1 l2, toggleTaskCompletionT l id = .ok l1 ∧
      toggleTaskCompletionT l1 id = .ok l2 ∧
      getTaskT l1 id = some { t with completed := !t.completed } ∧
      getTaskT l2 id = some t := by
  obtain ⟨pt, i, hi, hget⟩ := jsFind_eq_some _ _ _ h
  have hid : t.id = id := by simpa using pt
  have hflip : (({ t with completed := !t.completed } : Task).id == id) = true := by
    simpa using hid
  have hidx1 : jsFindIndex (fun x => x.id == id)
      (l.set i { t with completed := !t.completed }) = some i :=
    jsFindIndex_set _ _ _ _ hi hflip
  have hfind1 : getTaskT (l.set i { t with completed := !t.completed }) id
      = some { t with completed := !t.completed } := by
    unfold getTaskT
    exact jsFind_set _ _ _ _ hi hflip
  have h1 : toggleTaskCompletionT l id
      = .ok (l.set i { t with completed := !t.completed }) := by
    simp only [toggleTaskCompletionT, updateTaskT, h, hid, hi]
  have hpred : (fun x : Task => x.id == t.id) = (fun x => x.id == id) := by
    funext x
    rw [hid]
  have hidx1t : jsFindIndex (fun x => x.id == t.id)
      (l.set i { t with completed := !t.completed }) = some i := by
    rw [hpred]
    exact hidx1
  have h2 : toggleTaskCompletionT (l.set i { t with completed := !t.completed }) id
      = .ok ((l.set i { t with completed := !t.completed }).set i t) := by
    simp only [toggleTaskCompletionT, updateTaskT, hfind1, hidx1t, Bool.not_not]
  refine ⟨_, _, h1, h2, hfind1, ?_⟩
  unfold getTaskT
  exact jsFind_set _ _ _ _ hidx1 (by simpa using hid)

/-- Witness for C8 at a concrete input: toggling `taskA` twice. -/
theorem toggle_involution_witness :
    ∃ l1 l2, toggleTaskCompletionT [taskA] "task-1" = .ok l1 ∧
      toggleTaskCompletionT l1 "task-1" = .ok l2 ∧
      getTaskT l1 "task-1" = some { taskA with completed := !taskA.completed } ∧
      getTaskT l2 "task-1" = some taskA :=
  toggle_involution [taskA] "task-1" taskA (by decide)

/-- A successful `updateChat` persists the replacement at the found
index (helper shared by the `addMessage` reasoning). -/
theorem updateChatT_eq_ok (l : List Chat) (c : Chat) (i : Nat)
    (hi : jsFindIndex (fun x => x.id == c.id) l = some i) :
    updateChatT l c = .ok (l.set i c) := by
  unfold updateChatT
  rw [hi]

/-- One successful `addMessage` call: the returned message carries the
given text and timestamp, and the persisted conversation holds it as
last element of its message sequence with `lastMessage` /
`lastMessageTime` mirroring it. -/
theorem addMessageT_ok (l : List Chat) (nid cid : String) (md : MessageData)
    (m : Message) (l2 : List Chat)
    (h : addMessageT l nid cid md = .ok (m, l2)) :
    m.text = md.text ∧ m.timestamp = md.timestamp ∧
    ∃ c2, getChatT l2 cid = some c2 ∧
      c2.lastMessage = md.text ∧ c2.lastMessageTime = md.timestamp ∧
      c2.messages.getLast? = some m := by
  unfold addMessageT at h
  cases hc : getChatT l cid with
  | none =>
      simp only [hc] at h
      exact Except.noConfusion h
  | some chat =>
      obtain ⟨pc, i, hi, hgeti⟩ := jsFind_eq_some _ _ _ hc
      have hcid : chat.id = cid := by simpa using pc
      have hi2 : jsFindIndex (fun x : Chat => x.id == chat.id) l = some i := by
        rw [show (fun x : Chat => x.id == chat.id) = (fun x => x.id == cid) from
          by funext x; rw [hcid]]
        exact hi
      have hu := updateChatT_eq_ok l
        { chat with
            messages := chat.messages ++
              [{ id := nid, chatId := cid, text := md.text, isUser := md.isUser,
                 timestamp := md.timestamp }],
            lastMessage := md.text, lastMessageTime := md.timestamp } i hi2
      simp only [hc, hu] at h
      obtain ⟨hm, hl⟩ := by
        simpa using h
      refine ⟨by rw [← hm], by rw [← hm],
        { chat with
            messages := chat.messages ++
              [{ id := nid, chatId := cid, text := md.text, isUser := md.isUser,
                 timestamp := md.timestamp }],
            lastMessage := md.text, lastMessageTime := md.timestamp },
        ?_, rfl, rfl, ?_⟩
      · rw [← hl]
        unfold getChatT
        exact jsFind_set _ _ _ _ hi (by simpa using hcid)
      · rw [← hm]
        exact List.getLast?_concat _

/-- C1: after any nonempty sequence of successful `addMessage` calls on
a conversation, the conversation's `lastMessage` and `lastMessageTime`
equal the text and timestamp of the last appended message, and that
message is the last element of the conversation's message sequence. -/
theorem addMessages_lastMessage (l : List Chat) (cid : String)
    (mds : List (String × MessageData)) (nid : String) (md : MessageData)
    (l2 : List Chat)
    (hlast : mds.getLast? = some (nid, md))
    (hrun : addMessagesT l cid mds = .ok l2) :
    ∃ c m, getChatT l2 cid = some c ∧
      c.messages.getLast? = some m ∧
      c.lastMessage = m.text ∧ c.lastMessageTime = m.timestamp ∧
      m.text = md.text ∧ m.timestamp = md.timestamp := by
  induction mds generalizing l nid md with
  | nil => cases hlast
  | cons a rest ih =>
      obtain ⟨n1, d1⟩ := a
      unfold addMessagesT at hrun
      cases ha : addMessageT l n1 cid d1 with
      | error e =>
          simp only [ha] at hrun
          exact Except.noConfusion hrun
      | ok p =>
          obtain ⟨m1, l3⟩ := p
          simp only [ha] at hrun
          cases rest with
          | nil =>
              have hl3 : l3 = l2 := by
                simpa [addMessagesT] using hrun
              have heq : n1 = nid ∧ d1 = md := by
                simpa using hlast
              obtain ⟨rfl, rfl⟩ := heq
              obtain ⟨hm1, hm2, c2, hc2, hlm, hlt, hgl⟩ :=
                addMessageT_ok l n1 cid d1 m1 l3 ha
              exact ⟨c2, m1, by rw [← hl3]; exact hc2, hgl,
                by rw [hlm, hm1], by rw [hlt, hm2], hm1, hm2⟩
          | cons b rest2 =>
              have hlast2 : (b :: rest2).getLast? = some (nid, md) := by
                rw [← List.getLast?_cons_cons]
                exact hlast
              exact ih l3 nid md hlast2 hrun

/-- Witness for C1 at a concrete input: one `addMessage` call on
`chatA`. -/
theorem addMessages_lastMessage_witness :
    ∃ c m,
      getChatT
        [{ id := "chat-1", title := "Alpha", lastMessage := "hello",
           lastMessageTime := 4,
           messages := [{ id := "msg-1", text := "hello", isUser := true,
                          timestamp := 4, chatId := "chat-1" }] }] "chat-1"
        = some c ∧
      c.messages.getLast? = some m ∧
      c.lastMessage = m.text ∧ c.lastMessageTime = m.timestamp ∧
      m.text = "hello" ∧ m.timestamp = 4 :=
  addMessages_lastMessage [chatA] "chat-1"
    [("msg-1", { text := "hello", isUser := true, timestamp := 4 })]
    "msg-1" { text := "hello", isUser := true, timestamp := 4 }
    [{ id := "chat-1", title := "Alpha", lastMessage := "hello",
       lastMessageTime := 4,
       messages := [{ id := "msg-1", text := "hello", isUser := true,
                      timestamp := 4, chatId := "chat-1" }] }]
    (by decide) (by decide)

/-! ## Claim C2: the sanitizer on raw deserialized arrays -/

/-- Writing one key leaves lookups of a different key unchanged. -/
theorem jsLookup_jsSet_ne (k1 k2 : String) (v : JValue)
    (f : List (String × JValue)) (h : k1 ≠ k2) :
    jsLookup k2 (jsSet k1 v f) = jsLookup k2 f := by
  induction f with
  | nil => simp [jsSet, jsLookup, h]
  | cons kv fs ih =>
      obtain ⟨k, w⟩ := kv
      by_cases hk : k = k1
      · subst hk
        simp [jsSet, jsLookup, h]
      · by_cases hk2 : k = k2
        · subst hk2
          simp [jsSet, jsLookup, hk]
        · simp [jsSet, jsLookup, hk, hk2, ih]

/-- Rehydrating one date field leaves lookups of a different key
unchanged. -/
theorem jsLookup_convertDateField_ne (name k : String)
    (f : List (String × JValue)) (h : name ≠ k) :
    jsLookup k (convertDateField name f) = jsLookup k f := by
  unfold convertDateField
  cases hl : jsLookup name f with
  | str s =>
      by_cases hs : s = ""
      · simp [hs]
      · simp [hs, jsLookup_jsSet_ne name k _ f h]
  | null => rfl
  | undef => rfl
  | bool b => rfl
  | num n => rfl
  | date ms => rfl
  | arr xs => rfl
  | obj g => rfl

theorem convertMessageDates_safe (m : JValue) (h : nonNullish m = true) :
    convertMessageDates m = .ok (rehydrateMsg m) := by
  cases m <;> simp_all [nonNullish, convertMessageDates, rehydrateMsg]

theorem mapExcept_convertMessageDates (ms : List JValue)
    (h : ms.all nonNullish = true) :
    mapExcept convertMessageDates ms = .ok (ms.map rehydrateMsg) := by
  induction ms with
  | nil => rfl
  | cons x xs ih =>
      simp only [List.all_cons, Bool.and_eq_true] at h
      simp only [mapExcept, convertMessageDates_safe x h.1, ih h.2]
      rfl

theorem convertItemDates_safe (v : JValue) (h : elemSafe v = true) :
    convertItemDates v = .ok (rehydrateItem v) := by
  cases v with
  | null => simp [elemSafe] at h
  | undef => simp [elemSafe] at h
  | bool b => rfl
  | num n => rfl
  | str s => rfl
  | date ms => rfl
  | arr xs => rfl
  | obj f =>
      simp only [convertItemDates, rehydrateItem]
      cases hv : jsLookup "messages"
          (convertDateField "createdAt"
            (convertDateField "lastMessageTime"
              (convertDateField "timestamp" f))) with
      | arr ms =>
          have hall : ms.all nonNullish = true := by
            have e1 : jsLookup "messages"
                (convertDateField "createdAt"
                  (convertDateField "lastMessageTime"
                    (convertDateField "timestamp" f)))
                = jsLookup "messages" f := by
              rw [jsLookup_convertDateField_ne _ _ _ (by decide),
                jsLookup_convertDateField_ne _ _ _ (by decide),
                jsLookup_convertDateField_ne _ _ _ (by decide)]
            rw [e1] at hv
            simpa [elemSafe, hv] using h
          simp [hv, mapExcept_convertMessageDates ms hall]
      | null => simp [hv]
      | undef => simp [hv]
      | bool b => simp [hv]
      | num n => simp [hv]
      | str s => simp [hv]
      | date ms => simp [hv]
      | obj g => simp [hv]

theorem mapExcept_convertItemDates (xs : List JValue) (h : xs.all elemSafe = true) :
    mapExcept convertItemDates xs = .ok (xs.map rehydrateItem) := by
  induction xs with
  | nil => rfl
  | cons x rest ih =>
      simp only [List.all_cons, Bool.and_eq_true] at h
      simp only [mapExcept, convertItemDates_safe x h.1, ih h.2]
      rfl

/-- C2 (counterexample): `sanitizeStorageData` does raise an error on a
`null` input element — reading `item.timestamp` on it throws a
`TypeError` — refuting the claim that it never raises an error on any
input element. -/
theorem sanitize_throws_on_null :
    sanitizeStorageData (.arr [.null]) validateTask
      = .error "TypeError: cannot read properties of null" := by
  decide

/-- C2 (amended): on a deserialized array none of whose elements (nor
elements of their nested `messages` arrays) is `null`/`undefined`,
`sanitizeStorageData` raises no error and returns exactly the
validator-passing elements of the date-rehydrated array. -/
theorem sanitize_safe_spec (xs : List JValue) (validator : JValue → Bool)
    (h : xs.all elemSafe = true) :
    sanitizeStorageData (.arr xs) validator
      = .ok ((xs.map rehydrateItem).filter validator) := by
  unfold sanitizeStorageData
  simp [mapExcept_convertItemDates xs h]

/-- Witness for the amended C2 at a concrete input: a mixed array of one
valid and one invalid raw task record. -/
theorem sanitize_safe_spec_witness :
    sanitizeStorageData (.arr [rawTaskGood, rawTaskBad]) validateTask
      = .ok (([rawTaskGood, rawTaskBad].map rehydrateItem).filter validateTask) :=
  sanitize_safe_spec [rawTaskGood, rawTaskBad] validateTask (by decide)

/-! ## Claim C9: `getProfile` with no (or an invalid) persisted profile

`getProfile` on a missing/invalid profile builds the default and calls
`updateProfile(default)`; but `updateProfile` begins with
`await this.getProfile()` on the still-unchanged store, so the two
methods re-enter each other forever and nothing is ever persisted or
returned.  In the fuel model: every fuel bound is exhausted. -/

/-- On a store whose profile key is absent or fails validation, both
`getProfile` and `updateProfile` exhaust any fuel bound: neither ever
returns, and the store is never written. -/
theorem profile_loop (s : Store)
    (hs : s.profile = none ∨
      ∃ v, s.profile = some v ∧ validateUserProfile v = false) :
    ∀ fuel : Nat, getProfileF fuel s = none ∧
      ∀ d, updateProfileF fuel d s = none := by
  intro fuel
  induction fuel with
  | zero => exact ⟨rfl, fun d => rfl⟩
  | succ n ih =>
      constructor
      · rcases hs with hnone | ⟨v, hv, hval⟩
        · simp [getProfileF, hnone, ih.2 defaultProfileJ]
        · simp [getProfileF, hv, hval, ih.2 defaultProfileJ]
      · intro d
        simp [updateProfileF, ih.1]

/-- C9: at the failing inputs — an empty store (first-ever call), and a
store persisting a value that fails the profile validator — `getProfile`
returns nothing at any fuel bound: the code diverges instead of
returning the default profile and persisting it. -/
theorem getProfile_diverges (fuel : Nat) :
    getProfileF fuel Store.empty = none ∧
    getProfileF fuel { Store.empty with profile := some (.str "junk") } = none :=
  ⟨(profile_loop Store.empty (Or.inl rfl) fuel).1,
   (profile_loop _ (Or.inr ⟨.str "junk", rfl, rfl⟩) fuel).1⟩

/-- Serializing a mapped list reduces pointwise when each image
serializes to an object. -/
theorem jsonSerializeList_map (g w : α → JValue)
    (hx : ∀ x, jsonSerialize (g x) = w x)
    (hobj : ∀ x, ∃ fs, w x = .obj fs) :
    ∀ xs : List α, jsonSerializeList (xs.map g) = xs.map w := by
  intro xs
  induction xs with
  | nil => rfl
  | cons x rest ih =>
      obtain ⟨fs, hfs⟩ := hobj x
      simp only [List.map_cons, jsonSerializeList, hx x, ih, hfs]

/-- `mapExcept` over a mapped list reduces pointwise when each image
converts successfully. -/
theorem mapExcept_map (f : JValue → Except String JValue) (g w : α → JValue)
    (hx : ∀ x, f (g x) = .ok (w x)) :
    ∀ xs : List α, mapExcept f (xs.map g) = .ok (xs.map w) := by
  intro xs
  induction xs with
  | nil => rfl
  | cons x rest ih =>
      simp only [List.map_cons, mapExcept, hx x, ih]
      rfl

theorem serialize_encodeMessage (m : Message) :
    jsonSerialize (encodeMessage m) = wireMsg m := rfl

theorem serialize_encodeChat (c : Chat) :
    jsonSerialize (encodeChat c) = wireChat c := by
  simp only [encodeChat, wireChat, jsonSerialize, jsonSerializeFields,
    jsonSerializeList_map encodeMessage wireMsg serialize_encodeMessage
      (fun m => ⟨_, rfl⟩) c.messages]

theorem serialize_encodeTask (t : Task) :
    jsonSerialize (encodeTask t) = wireTask t := by
  cases hd : t.description <;> cases hf : t.fromChatId <;>
    simp [encodeTask, wireTask, optStr, jsonSerialize, jsonSerializeFields,
      hd, hf]

theorem serialize_wireMsg (m : Message) :
    jsonSerialize (wireMsg m) = wireMsg m := rfl

theorem serialize_wireChat (c : Chat) :
    jsonSerialize (wireChat c) = wireChat c := by
  simp only [wireChat, jsonSerialize, jsonSerializeFields,
    jsonSerializeList_map wireMsg wireMsg serialize_wireMsg
      (fun m => ⟨_, rfl⟩) c.messages]

theorem serialize_wireTask (t : Task) :
    jsonSerialize (wireTask t) = wireTask t := by
  cases hd : t.description <;> cases hf : t.fromChatId <;>
    simp [wireTask, jsonSerialize, jsonSerializeFields, hd, hf]

theorem serialize_memTask (t : Task) :
    jsonSerialize (memTask t) = wireTask (hydT t) := by
  cases hd : t.description <;> cases hf : t.fromChatId <;>
    simp [memTask, wireTask, hydT, jsonSerialize, jsonSerializeFields, hd, hf]

theorem rehydrate_wireMsg (m : Message) :
    convertMessageDates (wireMsg m) = .ok (encodeMessage (hydM m)) := by
  simp [wireMsg, convertMessageDates, convertDateField, jsLookup, jsSet,
    encodeMessage, hydM, jsDateToString_ne_empty m.timestamp]

theorem rehydrate_wireChat (c : Chat) :
    convertItemDates (wireChat c) = .ok (encodeChat (hydC c)) := by
  simp [wireChat, convertItemDates, convertDateField, jsLookup, jsSet,
    encodeChat, hydC, jsDateToString_ne_empty c.lastMessageTime,
    mapExcept_map convertMessageDates wireMsg (fun m => encodeMessage (hydM m))
      rehydrate_wireMsg c.messages]

theorem rehydrate_wireTask (t : Task) :
    convertItemDates (wireTask t) = .ok (memTask t) := by
  cases hd : t.description <;> cases hf : t.fromChatId <;>
    simp [wireTask, memTask, convertItemDates, convertDateField, jsLookup,
      jsSet, jsDateToString_ne_empty t.createdAt, hd, hf]

theorem validate_encodeMessage (m : Message) :
    validateMessage (encodeMessage m) = true := by
  simp [validateMessage, encodeMessage, jsLookup, JValue.isStr, JValue.isBool,
    JValue.isDate]

theorem validate_encodeChat (c : Chat) :
    validateChat (encodeChat c) = true := by
  simp [validateChat, encodeChat, jsLookup, JValue.isStr, JValue.isDate,
    List.all_map, Function.comp, validate_encodeMessage, List.all_eq_true]

theorem validate_memTask (t : Task) :
    validateTask (memTask t) = true := by
  cases hd : t.description <;> cases hf : t.fromChatId <;>
    simp [validateTask, memTask, jsLookup, JValue.isStr, JValue.isBool,
      JValue.isDate, JValue.isUndef, hd, hf]

/-- Sanitizing a persisted chat collection returns the rehydrated chats
(one per persisted chat: every rehydrated chat passes the validator). -/
theorem sanitize_wireChats (cs : List Chat) :
    sanitizeStorageData (.arr (cs.map wireChat)) validateChat
      = .ok (cs.map (fun c => encodeChat (hydC c))) := by
  have hall : ∀ x ∈ cs.map (fun c => encodeChat (hydC c)),
      validateChat x = true := by
    intro x hx
    obtain ⟨c, _, rfl⟩ := List.mem_map.mp hx
    exact validate_encodeChat _
  simp [sanitizeStorageData,
    mapExcept_map convertItemDates wireChat _ rehydrate_wireChat cs,
    List.filter_eq_self.mpr hall]

/-- Sanitizing a persisted task collection returns the rehydrated tasks. -/
theorem sanitize_wireTasks (ts : List Task) :
    sanitizeStorageData (.arr (ts.map wireTask)) validateTask
      = .ok (ts.map memTask) := by
  have hall : ∀ x ∈ ts.map memTask, validateTask x = true := by
    intro x hx
    obtain ⟨t, _, rfl⟩ := List.mem_map.mp hx
    exact validate_memTask _
  simp [sanitizeStorageData,
    mapExcept_map convertItemDates wireTask _ rehydrate_wireTask ts,
    List.filter_eq_self.mpr hall]

theorem rawGetChats_eq (s : Store) (cs : List Chat)
    (h : s.chats = some (.arr (cs.map wireChat))) :
    rawGetChats s = cs.map (fun c => encodeChat (hydC c)) := by
  simp [rawGetChats, h, sanitize_wireChats]

theorem rawGetTasks_eq (s : Store) (ts : List Task)
    (h : s.tasks = some (.arr (ts.map wireTask))) :
    rawGetTasks s = ts.map memTask := by
  simp [rawGetTasks, h, sanitize_wireTasks]

theorem serialize_encodeProfile_idem (p : UserProfile) :
    jsonSerialize (jsonSerialize (encodeProfile p))
      = jsonSerialize (encodeProfile p) := by
  obtain ⟨name, avatar, ⟨theme, notif, ai⟩⟩ := p
  cases name <;> cases avatar <;>
    simp [encodeProfile, encodePreferences, optStr, jsonSerialize,
      jsonSerializeFields]

theorem validate_serializeProfile (p : UserProfile) :
    validateUserProfile (jsonSerialize (encodeProfile p)) = true := by
  obtain ⟨name, avatar, ⟨theme, notif, ai⟩⟩ := p
  cases name <;> cases avatar <;> cases theme <;>
    simp [encodeProfile, encodePreferences, optStr, jsonSerialize,
      jsonSerializeFields, validateUserProfile, jsLookup, Theme.toStr,
      JValue.isStr, JValue.isBool, JValue.isUndef]

/-- `getProfile` with a persisted valid profile returns it in one step
and leaves the store unchanged. -/
theorem getProfileF_valid (s : Store) (v : JValue) (fuel : Nat)
    (hv : s.profile = some v) (hval : validateUserProfile v = true) :
    getProfileF (fuel + 1) s = some (v, s) := by
  simp [getProfileF, hv, hval]

/-! ## Claim C3: export / clear / import round trip -/

theorem mkStore_chats (cs : List Chat) (ts : List Task) (p : UserProfile) :
    (mkStore cs ts p).chats = some (.arr (cs.map wireChat)) := by
  simp [mkStore, jsonSerialize,
    jsonSerializeList_map encodeChat wireChat serialize_encodeChat
      (fun c => ⟨_, rfl⟩) cs]

theorem mkStore_tasks (cs : List Chat) (ts : List Task) (p : UserProfile) :
    (mkStore cs ts p).tasks = some (.arr (ts.map wireTask)) := by
  simp [mkStore, jsonSerialize,
    jsonSerializeList_map encodeTask wireTask serialize_encodeTask
      (fun t => by cases hd : t.description <;> cases hf : t.fromChatId <;>
        simp [wireTask, hd, hf]) ts]

theorem exceptBind_ok (a : α) (f : α → Except ε β) :
    (Except.ok a >>= f) = f a := rfl

theorem truthy_obj (fs : List (String × JValue)) :
    (JValue.obj fs).truthy = true := rfl

theorem truthy_arr (xs : List JValue) : (JValue.arr xs).truthy = true := rfl

theorem isArr_arr (xs : List JValue) : (JValue.arr xs).isArr = true := rfl

theorem jsonSerialize_obj (fs : List (String × JValue)) :
    jsonSerialize (.obj fs) = .obj (jsonSerializeFields fs) := rfl

theorem jsonSerialize_arr (xs : List JValue) :
    jsonSerialize (.arr xs) = .arr (jsonSerializeList xs) := rfl

/-- Serializing a field list, one field at a time, when the field's
serialized value is known and is not `undefined`. -/
theorem jsonSerializeFields_cons_of (k : String) (v w : JValue)
    (fs : List (String × JValue)) (hv : jsonSerialize v = w)
    (hw : w ≠ .undef) :
    jsonSerializeFields ((k, v) :: fs) = (k, w) :: jsonSerializeFields fs := by
  cases w <;>
    first
      | exact absurd rfl hw
      | simp [jsonSerializeFields, hv]

theorem jsonMsgCount_encodeChat (c : Chat) :
    jsonMsgCount (encodeChat c) = c.messages.length := by
  simp [jsonMsgCount, encodeChat, jsGetD, jsLookup]

theorem hydC_messages_length (c : Chat) :
    (hydC c).messages.length = c.messages.length := by
  simp [hydC]

/-- C3 (amended): from any storage state persisting structurally valid
conversations and tasks together with a validator-passing profile,
`exportData()` followed by `clearData()` followed by
`importData(exported)` completes and restores the conversation count,
the task count and the per-conversation message counts to their
pre-clear values. -/
theorem export_roundTrip_restores (cs : List Chat) (ts : List Task)
    (p : UserProfile) (fuel now : Nat) :
    ∃ s2, exportClearImportF (fuel + 1) now (mkStore cs ts p) = some s2 ∧
      chatCount s2 = chatCount (mkStore cs ts p) ∧
      taskCount s2 = taskCount (mkStore cs ts p) ∧
      messageCounts s2 = messageCounts (mkStore cs ts p) := by
  have hgc : rawGetChats (mkStore cs ts p)
      = cs.map (fun c => encodeChat (hydC c)) :=
    rawGetChats_eq _ _ (mkStore_chats cs ts p)
  have hgt : rawGetTasks (mkStore cs ts p) = ts.map memTask :=
    rawGetTasks_eq _ _ (mkStore_tasks cs ts p)
  have hgp : getProfileF (fuel + 1) (mkStore cs ts p)
      = some (jsonSerialize (encodeProfile p), mkStore cs ts p) :=
    getProfileF_valid _ _ _ rfl (validate_serializeProfile p)
  have hexport : exportDataF (fuel + 1) now (mkStore cs ts p)
      = some (jsonSerialize (JValue.obj
          [("exportDate", .str (jsDateToString now)),
           ("version", .str "1.0.0"),
           ("data", .obj
             [("chats", .arr (cs.map (fun c => encodeChat (hydC c)))),
              ("tasks", .arr (ts.map memTask)),
              ("profile", jsonSerialize (encodeProfile p))])]),
          mkStore cs ts p) := by
    simp only [exportDataF, hgc, hgt, hgp]
  have hpne : jsonSerialize (encodeProfile p) ≠ .undef := by
    rw [show jsonSerialize (encodeProfile p)
      = .obj (jsonSerializeFields
          [("name", optStr p.name), ("avatar", optStr p.avatar),
           ("preferences", encodePreferences p.preferences)]) from rfl]
    exact fun h => JValue.noConfusion h
  have hchats2 : jsonSerialize (.arr (cs.map (fun c => encodeChat (hydC c))))
      = .arr (cs.map (fun c => wireChat (hydC c))) := by
    rw [jsonSerialize_arr]
    rw [jsonSerializeList_map (fun c => encodeChat (hydC c))
      (fun c => wireChat (hydC c)) (fun c => serialize_encodeChat (hydC c))
      (fun c => ⟨_, rfl⟩) cs]
  have htasks2 : jsonSerialize (.arr (ts.map memTask))
      = .arr (ts.map (fun t => wireTask (hydT t))) := by
    rw [jsonSerialize_arr]
    rw [jsonSerializeList_map memTask (fun t => wireTask (hydT t))
      serialize_memTask
      (fun t => by cases hd : t.description <;> cases hf : t.fromChatId <;>
        simp [wireTask, hd, hf]) ts]
  have hdata : jsonSerialize (JValue.obj
      [("chats", .arr (cs.map (fun c => encodeChat (hydC c)))),
       ("tasks", .arr (ts.map memTask)),
       ("profile", jsonSerialize (encodeProfile p))])
      = JValue.obj
      [("chats", .arr (cs.map (fun c => wireChat (hydC c)))),
       ("tasks", .arr (ts.map (fun t => wireTask (hydT t)))),
       ("profile", jsonSerialize (encodeProfile p))] := by
    rw [jsonSerialize_obj]
    rw [jsonSerializeFields_cons_of _ _ _ _ hchats2
        (fun h => JValue.noConfusion h),
      jsonSerializeFields_cons_of _ _ _ _ htasks2
        (fun h => JValue.noConfusion h),
      jsonSerializeFields_cons_of _ _ _ _ (serialize_encodeProfile_idem p)
        hpne]
    rfl
  have hdoc : jsonSerialize (JValue.obj
      [("exportDate", .str (jsDateToString now)),
       ("version", .str "1.0.0"),
       ("data", .obj
         [("chats", .arr (cs.map (fun c => encodeChat (hydC c)))),
          ("tasks", .arr (ts.map memTask)),
          ("profile", jsonSerialize (encodeProfile p))])])
      = JValue.obj
      [("exportDate", .str (jsDateToString now)),
       ("version", .str "1.0.0"),
       ("data", .obj
         [("chats", .arr (cs.map (fun c => wireChat (hydC c)))),
          ("tasks", .arr (ts.map (fun t => wireTask (hydT t)))),
          ("profile", jsonSerialize (encodeProfile p))])] := by
    rw [jsonSerialize_obj]
    rw [jsonSerializeFields_cons_of "exportDate" (.str (jsDateToString now))
        (.str (jsDateToString now)) _ rfl (fun h => JValue.noConfusion h),
      jsonSerializeFields_cons_of "version" (.str "1.0.0") (.str "1.0.0") _
        rfl (fun h => JValue.noConfusion h),
      jsonSerializeFields_cons_of _ _ _ _ hdata
        (fun h => JValue.noConfusion h)]
    rfl
  have himp : importDataF (JValue.obj
      [("exportDate", .str (jsDateToString now)),
       ("version", .str "1.0.0"),
       ("data", .obj
         [("chats", .arr (cs.map (fun c => wireChat (hydC c)))),
          ("tasks", .arr (ts.map (fun t => wireTask (hydT t)))),
          ("profile", jsonSerialize (encodeProfile p))])]) Store.empty
      = .ok
        { chats := some (.arr (cs.map (fun c => wireChat (hydC c))))
          tasks := some (.arr (ts.map (fun t => wireTask (hydT t))))
          profile := some (jsonSerialize (encodeProfile p))
          settings := none } := by
    have hwc : jsonSerialize (.arr (cs.map (fun c => wireChat (hydC c))))
        = .arr (cs.map (fun c => wireChat (hydC c))) := by
      rw [jsonSerialize_arr,
        jsonSerializeList_map (fun c => wireChat (hydC c))
          (fun c => wireChat (hydC c)) (fun c => serialize_wireChat (hydC c))
          (fun c => ⟨_, rfl⟩) cs]
    have hwt : jsonSerialize (.arr (ts.map (fun t => wireTask (hydT t))))
        = .arr (ts.map (fun t => wireTask (hydT t))) := by
      rw [jsonSerialize_arr,
        jsonSerializeList_map (fun t => wireTask (hydT t))
          (fun t => wireTask (hydT t)) (fun t => serialize_wireTask (hydT t))
          (fun t => by cases hd : (hydT t).description <;>
            cases hf : (hydT t).fromChatId <;> simp [wireTask, hd, hf]) ts]
    have hpt : (jsonSerialize (encodeProfile p)).truthy = true := by
      rw [show jsonSerialize (encodeProfile p)
        = .obj (jsonSerializeFields
            [("name", optStr p.name), ("avatar", optStr p.avatar),
             ("preferences", encodePreferences p.preferences)]) from rfl]
      rfl
    simp [importDataF, jsGet, jsLookup, truthy_obj, truthy_arr, isArr_arr,
      exceptBind_ok, hwc, hwt, hpt,
      validate_serializeProfile, serialize_encodeProfile_idem, Store.empty]
  have hclear : clearDataF (mkStore cs ts p) = Store.empty := rfl
  have hrun : exportClearImportF (fuel + 1) now (mkStore cs ts p)
      = some
        { chats := some (.arr (cs.map (fun c => wireChat (hydC c))))
          tasks := some (.arr (ts.map (fun t => wireTask (hydT t))))
          profile := some (jsonSerialize (encodeProfile p))
          settings := none } := by
    simp only [exportClearImportF, hexport, hdoc, hclear, himp]
  refine ⟨_, hrun, ?_, ?_, ?_⟩
  · have h2 : rawGetChats
        { chats := some (.arr (cs.map (fun c => wireChat (hydC c))))
          tasks := some (.arr (ts.map (fun t => wireTask (hydT t))))
          profile := some (jsonSerialize (encodeProfile p))
          settings := none }
        = (cs.map hydC).map (fun c => encodeChat (hydC c)) :=
      rawGetChats_eq _ (cs.map hydC) (by simp [List.map_map, Function.comp])
    simp [chatCount, h2, hgc]
  · have h2 : rawGetTasks
        { chats := some (.arr (cs.map (fun c => wireChat (hydC c))))
          tasks := some (.arr (ts.map (fun t => wireTask (hydT t))))
          profile := some (jsonSerialize (encodeProfile p))
          settings := none }
        = (ts.map hydT).map memTask :=
      rawGetTasks_eq _ (ts.map hydT) (by simp [List.map_map, Function.comp])
    simp [taskCount, h2, hgt]
  · have h2 : rawGetChats
        { chats := some (.arr (cs.map (fun c => wireChat (hydC c))))
          tasks := some (.arr (ts.map (fun t => wireTask (hydT t))))
          profile := some (jsonSerialize (encodeProfile p))
          settings := none }
        = (cs.map hydC).map (fun c => encodeChat (hydC c)) :=
      rawGetChats_eq _ (cs.map hydC) (by simp [List.map_map, Function.comp])
    simp [messageCounts, h2, hgc, List.map_map, Function.comp,
      jsonMsgCount_encodeChat, hydC_messages_length]

/-- C3 (counterexample): a storage state holding one structurally valid
conversation and one valid task but no persisted profile.  `exportData`
calls `getProfile`, which diverges (claim C9's failing recursion), so
the export/clear/import sequence never completes and the counts are not
restored — refuting the claim as stated, which assumes nothing about the
profile key. -/
theorem export_roundTrip_fails_without_profile :
    exportRoundTripNeverCompletes
      { mkStore [chatA] [taskA] createDefaultUserProfile with
          profile := none } := by
  intro fuel now
  have hdiv := (profile_loop
    { mkStore [chatA] [taskA] createDefaultUserProfile with profile := none }
    (Or.inl rfl) fuel).1
  cases fuel with
  | zero => simp [exportClearImportF, exportDataF, hdiv]
  | succ n => simp [exportClearImportF, exportDataF, hdiv]

end ChatBot

